import Mathlib

/-
Verification of the easylens channel-compositing pipeline
(`src/easylens/cli.py`) against its natural-language specification.

The shallow embedding below translates the pure content of `cli.py`:
 - the LUT dictionary (lines 19-38) becomes a finite map from names to the
   saturated endpoint colour of each two-point black-to-colour colormap;
 - the extraction loop (lines 152-162) becomes `extractChannels`;
 - the per-image body of `main`'s loop (lines 149-198) becomes
   `processImage`, with the mutable locals `channels`, `cmaps` and the loop
   variable `channel` carried in an explicit state `St`;
 - the exceptional exits (`ValueError` from `get_frame`, the
   `UnboundLocalError` that line 170 raises when `channel` was never bound)
   become `Option` results and `Except Unit`;
 - output-path resolution (lines 140-146 and 192-193) becomes
   `resolveOutputPath`, with `pathlib`'s last-dot suffix rule spelled out;
 - matplotlib's `imshow(vmin, vmax, cmap)` value-to-colour mapping for a
   two-point `LinearSegmentedColormap` becomes `renderPixel`
   (clip the affine normalisation into [0,1], then interpolate
   linearly from black to the endpoint colour).
-/

set_option autoImplicit false

namespace EasyLens

/-- A decoded 2-D frame: `np.array(img.get_frame(...))`.  Intensities are
rationals; `val r c` is the sample at row `r`, column `c`. -/
structure PixelArray where
  height : Nat
  width : Nat
  val : Nat → Nat → ℚ

/-- `np.full((h, w), x)` — a constant field, used for the background layer
(cli.py line 175). -/
def constFull (h w : Nat) (x : ℚ) : PixelArray :=
  ⟨h, w, fun _ _ => x⟩

/-- One image of the project, as the compositor sees it through `readlif`:
a channel count (`img.channels`) and a frame fetcher
(`img.get_frame(z=, t=, c=)`); `none` models the `ValueError` raised when
the requested frame does not exist (cli.py lines 156-160). -/
structure ImageModel where
  channels : Nat
  getFrame : Nat → Nat → Nat → Option PixelArray

/-- The decoded project (`LifFile`): an image count and per-index images. -/
structure Project where
  numImages : Nat
  getImage : Nat → ImageModel

/-- An RGB colour with rational components in [0, 1]. -/
abbrev Color := ℚ × ℚ × ℚ

/-- Endpoint colour of `cmap_bf` (black → white), cli.py line 19. -/
def cmap_bf : Color := (1, 1, 1)

/-- Endpoint colour of `cmap_cyan` (black → cyan), cli.py line 20. -/
def cmap_cyan : Color := (0, 1, 1)

/-- Endpoint colour of `cmap_dapi` (black → blue), cli.py line 21. -/
def cmap_dapi : Color := (0, 0, 1)

/-- Endpoint colour of `cmap_green` (black → lime = #00FF00), cli.py line 22. -/
def cmap_green : Color := (0, 1, 0)

/-- Endpoint colour of `cmap_magenta` (black → magenta), cli.py line 23. -/
def cmap_magenta : Color := (1, 0, 1)

/-- Endpoint colour of `cmap_orange` (black → orange = #FFA500), cli.py line 24. -/
def cmap_orange : Color := (1, 165/255, 0)

/-- Endpoint colour of `cmap_red` (black → red), cli.py line 25. -/
def cmap_red : Color := (1, 0, 0)

/-- Endpoint colour of `cmap_yellow` (black → yellow), cli.py line 26. -/
def cmap_yellow : Color := (1, 1, 0)

/-- The `LUT` dictionary of cli.py lines 28-38: colormap name → endpoint
colour of the black-to-colour gradient; `none` models a `KeyError`. -/
def LUT : String → Option Color
  | "bf" => some cmap_bf
  | "dapi" => some cmap_dapi
  | "red" => some cmap_red
  | "cyan" => some cmap_cyan
  | "green" => some cmap_green
  | "magenta" => some cmap_magenta
  | "orange" => some cmap_orange
  | "yellow" => some cmap_yellow
  | "blue" => some cmap_dapi
  | _ => none

/-- `list(LUT.keys())` in the dictionary's insertion order (cli.py line 178's
default for `cmaps`). -/
def lutKeys : List String :=
  ["bf", "dapi", "red", "cyan", "green", "magenta", "orange", "yellow", "blue"]

/-- Clip a colormap coordinate into [0, 1] (matplotlib colormaps saturate at
their under/over colours, here the two endpoints). -/
def clip01 (x : ℚ) : ℚ := max 0 (min 1 x)

/-- matplotlib's `Normalize(vmin, vmax)` followed by endpoint saturation:
the colormap coordinate of intensity `v` under bounds `vmin`, `vmax`. -/
def normalize (v vmin vmax : ℚ) : ℚ :=
  clip01 ((v - vmin) / (vmax - vmin))

/-- Evaluate a two-point black-to-`full` colormap at coordinate `t`:
linear interpolation from (0,0,0) at `t = 0` to `full` at `t = 1`. -/
def applyCmap (full : Color) (t : ℚ) : Color :=
  (t * full.1, t * full.2.1, t * full.2.2)

/-- Colour rendered for intensity `v` by `plt.imshow(..., cmap=LUT[name],
vmin=low, vmax=high)` (cli.py lines 181-187); `none` models the `KeyError`
for an unknown colormap name. -/
def renderPixel (name : String) (low high v : ℚ) : Option Color :=
  (LUT name).map (fun c => applyCmap c (normalize v low high))

/-- One `plt.imshow` call: the array painted, the colormap name it is
painted with, the value bounds, and the blending alpha. -/
structure Layer where
  arr : PixelArray
  cmapName : String
  vmin : ℚ
  vmax : ℚ
  alpha : ℚ

/-- The rendered figure for one image: figure size in inches
(cli.py lines 165-168 and 173), the background `imshow` (lines 175-176) and
the channel `imshow`s (lines 180-187), bottom to top. -/
structure Composite where
  figWidth : ℚ
  figHeight : ℚ
  background : Layer
  layers : List Layer

/-- The channel layers: `zip(cmaps, pix_arrays)` (cli.py line 180), each
painted with its paired colormap at the shared threshold bounds and the
shared alpha. -/
def channelLayers (cmaps : List String) (pixArrays : List PixelArray)
    (alpha low high : ℚ) : List Layer :=
  (cmaps.zip pixArrays).map fun p =>
    { arr := p.2, cmapName := p.1, vmin := low, vmax := high, alpha := alpha }

/-- cli.py lines 164-187 for a non-empty `pix_arrays = p0 :: rest`:
figure size from the first array's shape, the background layer
`np.full(shape, 1)` shown with `vmin=0, vmax=1, cmap=cmap_bf` (opaque:
`imshow`'s default alpha), then the channel layers with
`alpha = 0.5 if len(pix_arrays) > 1 else 1`. -/
def buildComposite (cmaps : List String) (p0 : PixelArray)
    (rest : List PixelArray) (low high : ℚ) : Composite :=
  let alpha : ℚ := if (p0 :: rest).length > 1 then 1/2 else 1
  { figWidth := (p0.width : ℚ) / 1000
    figHeight := (p0.height : ℚ) / 1000
    background :=
      { arr := constFull p0.height p0.width 1, cmapName := "bf",
        vmin := 0, vmax := 1, alpha := 1 }
    layers := channelLayers cmaps (p0 :: rest) alpha low high }

/-- The extraction loop of cli.py lines 154-162: fetch each requested
channel at `(z, t=0)` in order; on the first fetch that fails (`ValueError`)
`break`, abandoning the remaining channels. -/
def extractChannels (img : ImageModel) (z : Nat) : List Nat → List PixelArray
  | [] => []
  | c :: cs =>
    match img.getFrame z 0 c with
    | none => []
    | some p => p :: extractChannels img z cs

/-- The channels the loop of cli.py lines 154-162 actually binds to the
loop variable `channel`: the successful ones plus, if any, the first
failing one (at which the loop breaks). -/
def attemptedChannels (img : ImageModel) (z : Nat) : List Nat → List Nat
  | [] => []
  | c :: cs =>
    match img.getFrame z 0 c with
    | none => [c]
    | some _ => c :: attemptedChannels img z cs

/-- The final path component: the characters after the last `/`. -/
def afterLastSlash (l : List Char) : List Char :=
  (l.reverse.takeWhile (· ≠ '/')).reverse

/-- The characters up to and including the last `/`. -/
def dirPart (l : List Char) : List Char :=
  l.take (l.length - (afterLastSlash l).length)

/-- `pathlib`'s suffix rule on a file name: the suffix starts at the last
`.`, provided that dot is neither the first nor the last character; the
result is the length of the stem (the part kept by `with_suffix`), or
`none` when the name has no suffix. -/
def stemLen (name : List Char) : Option Nat :=
  let t := name.reverse.takeWhile (· ≠ '.')
  if t.length = name.length then none
  else
    let k := name.length - t.length - 1
    if k = 0 ∨ t.length = 0 then none else some k

/-- `Path(name).with_suffix(suf)` on the name component alone. -/
def withSuffixName (name : List Char) (suf : List Char) : List Char :=
  match stemLen name with
  | none => name ++ suf
  | some k => name.take k ++ suf

/-- `Path(s).with_suffix(suf)` (cli.py line 193): replace the final
component's suffix — everything from its last interior dot — by `suf`,
or append `suf` when there is none. -/
def withSuffix (s suf : String) : String :=
  let l := s.data
  String.mk (dirPart l ++ withSuffixName (afterLastSlash l) suf.data)

/-- `Path(s).stem` (cli.py line 141): final component minus its suffix. -/
def stemOf (s : String) : String :=
  let nm := afterLastSlash s.data
  match stemLen nm with
  | none => String.mk nm
  | some k => String.mk (nm.take k)

/-- `'-'.join(map(str, channels))` (cli.py line 192). -/
def joinChannels (cs : List Nat) : String :=
  String.intercalate "-" (cs.map Nat.repr)

/-- Strip trailing slashes, as `pathlib` normalisation does before joining. -/
def dropTrailingSlashes (s : String) : String :=
  String.mk ((s.data.reverse.dropWhile (· = '/')).reverse)

/-- `os.fspath(Path(d, name))` (cli.py line 144) for a non-empty directory
path: join with a single separator. -/
def pathJoin (d name : String) : String :=
  let d' := dropTrailingSlashes d
  if d'.data = [] then name else d' ++ "/" ++ name

/-- cli.py lines 140-146 composed with the `.format` call of line 192:
the output pattern with the three holes already filled for image index
`i`, z index `z` and channel list `cs`.  (`output_fmt` only ever holds the
fixed templates of lines 142, 144 and 146, so expanding `.format` into
concatenation is faithful.)  `isDir` stands for `Path(output).is_dir()`. -/
def mkPattern (output : Option String) (isDir : String → Bool) (lif : String)
    (i z : Nat) (cs : List Nat) : String :=
  match output with
  | none => stemOf lif ++ "_i" ++ Nat.repr i ++ "_z" ++ Nat.repr z
      ++ "_c" ++ joinChannels cs
  | some o =>
    if isDir o then
      pathJoin o ("i" ++ Nat.repr i ++ "_z" ++ Nat.repr z ++ "_c"
        ++ joinChannels cs)
    else o ++ "_i" ++ Nat.repr i ++ "_z" ++ Nat.repr z ++ "_c"
      ++ joinChannels cs

/-- cli.py lines 140-146, 192-193: the saved file's path. -/
def resolveOutputPath (output : Option String) (isDir : String → Bool)
    (lif : String) (i z : Nat) (cs : List Nat) : String :=
  withSuffix (mkPattern output isDir lif i z cs) ".png"

/-- Reference definition following the spec's words (§4.1): the same
three-case pattern, with `.png` simply appended — "the final suffix is
forced to `.png` …, leaving the rest of the pattern intact". -/
def resolveOutputPathSpec (output : Option String) (isDir : String → Bool)
    (lif : String) (i z : Nat) (cs : List Nat) : String :=
  mkPattern output isDir lif i z cs ++ ".png"

/-- The function-local mutable state of `main`'s loop: the `channels` and
`cmaps` variables (parameters reassigned at lines 153 and 178 — `none`
models Python's `None`) and the binding of the loop variable `channel`
(`none` models "never yet bound"). -/
structure St where
  channelsOpt : Option (List Nat)
  cmapsOpt : Option (List String)
  lastChannel : Option Nat

/-- `channels = range(img.channels) if channels is None else channels`
(cli.py line 153). -/
def resolveChannels (st : St) (img : ImageModel) : List Nat :=
  st.channelsOpt.getD (List.range img.channels)

/-- What one image-index iteration produces: a saved figure (cli.py lines
192-195) or the warning of line 170 naming the image index and the channel
variable's current value. -/
inductive Outcome where
  | saved : String → Composite → Outcome
  | warned : Nat → Nat → Outcome

/-- The fname of a saved outcome, `none` for a warning. -/
def savedName : Outcome → Option String
  | .saved f _ => some f
  | .warned _ _ => none

/-- One iteration of `main`'s loop (cli.py lines 149-198).  `Except.error`
models the `UnboundLocalError` raised at line 170 when `pix_arrays` is
empty and the loop variable `channel` was never bound anywhere in the
call. -/
def processImage (proj : Project) (lif : String) (isDir : String → Bool)
    (output : Option String) (z : Nat) (low high : ℚ) (st : St) (i : Nat) :
    Except Unit (Outcome × St) :=
  let img := proj.getImage i
  let channels := resolveChannels st img
  let pix := extractChannels img z channels
  let lastCh :=
    match (attemptedChannels img z channels).getLast? with
    | some c => some c
    | none => st.lastChannel
  let st1 : St :=
    { channelsOpt := some channels, cmapsOpt := st.cmapsOpt,
      lastChannel := lastCh }
  match pix with
  | [] =>
    match st1.lastChannel with
    | none => .error ()
    | some c => .ok (.warned i c, st1)
  | p0 :: rest =>
    let cmaps := st1.cmapsOpt.getD lutKeys
    let st2 : St := { st1 with cmapsOpt := some cmaps }
    let comp := buildComposite cmaps p0 rest low high
    let fname := resolveOutputPath output isDir lif i z channels
    .ok (.saved fname comp, st2)

/-- `main`'s loop over the requested image indices, threading the shared
mutable state; stops with `Except.error` on an uncaught exception. -/
def runIndexes (proj : Project) (lif : String) (isDir : String → Bool)
    (output : Option String) (z : Nat) (low high : ℚ) :
    St → List Nat → Except Unit (List Outcome)
  | _, [] => .ok []
  | st, i :: is =>
    match processImage proj lif isDir output z low high st i with
    | .error e => .error e
    | .ok (o, st') =>
      (runIndexes proj lif isDir output z low high st' is).map (o :: ·)

/-- `main` (cli.py lines 127-200): default the index list to
`range(project.num_images)` (line 148) and run the loop. -/
def main (proj : Project) (lif : String) (isDir : String → Bool)
    (indexes : Option (List Nat)) (channels : Option (List Nat)) (z : Nat)
    (cmaps : Option (List String)) (low high : ℚ) (output : Option String) :
    Except Unit (List Outcome) :=
  runIndexes proj lif isDir output z low high
    ⟨channels, cmaps, none⟩ (indexes.getD (List.range proj.numImages))

/-- A Python value as argparse hands it to `main`: a raw token string or
an `int`. -/
inductive PyVal where
  | str : String → PyVal
  | int : Int → PyVal
  deriving DecidableEq

/-- Whether a `PyVal` is a string. -/
def PyVal.isStr : PyVal → Bool
  | .str _ => true
  | .int _ => false

/-- The `type=`/`default=` part of one argparse option declaration. -/
structure ArgSpec where
  typeFn : Option (String → PyVal)
  default : PyVal

/-- `--low-threshold` (cli.py lines 86-94): no `type=` conversion,
`default=0`. -/
def lowThresholdArg : ArgSpec := ⟨none, .int 0⟩

/-- `--high-threshold` (cli.py lines 96-104): no `type=` conversion,
`default=4095`. -/
def highThresholdArg : ArgSpec := ⟨none, .int 4095⟩

/-- argparse's value resolution: a supplied token passes through the
option's `type` callable, or stays the raw string when the option declares
none; an absent flag yields the declared default unchanged. -/
def argValue (opt : ArgSpec) : Option String → PyVal
  | some tok =>
    match opt.typeFn with
    | none => .str tok
    | some f => f tok
  | none => opt.default

/-- A filesystem in which no path is a directory (for concrete runs whose
`--output` is absent or a plain string). -/
def noDirs : String → Bool := fun _ => false

/-- A concrete 1×1 frame of intensity 0. -/
def pa0 : PixelArray := constFull 1 1 0

/-- A concrete image reporting one channel, whose only frame exists. -/
def imgOneChan : ImageModel :=
  ⟨1, fun _ _ c => if c < 1 then some pa0 else none⟩

/-- A concrete image reporting two channels, both of whose frames exist. -/
def imgTwoChan : ImageModel :=
  ⟨2, fun _ _ c => if c < 2 then some pa0 else none⟩

/-- A concrete project with image 0 = `imgOneChan` (one channel) and
image 1 = `imgTwoChan` (two channels). -/
def projOneTwo : Project :=
  ⟨2, fun i => if i = 0 then imgOneChan else imgTwoChan⟩

/-- A concrete image whose metadata reports zero channels. -/
def zeroChanImg : ImageModel := ⟨0, fun _ _ _ => none⟩

/-- A concrete project containing only the zero-channel image. -/
def zeroChanProj : Project := ⟨1, fun _ => zeroChanImg⟩

/-- A concrete image reporting one channel whose frame fetch nevertheless
fails (the `readlif` metadata mismatch the code comments on). -/
def failFrameImg : ImageModel := ⟨1, fun _ _ _ => none⟩

/-- A concrete project containing only `failFrameImg`. -/
def failFrameProj : Project := ⟨1, fun _ => failFrameImg⟩

/-- C1: for every image and every requested channel selection, extraction
fetches the channels in the listed order and stops at the first channel
whose fetch signals a value-domain failure; the result is exactly the
fetched frames of the longest leading run of the selection whose fetches
succeed, in the same order, with no skip-and-continue. -/
theorem extractChannels_eq_takeWhile (img : ImageModel) (z : Nat)
    (cs : List Nat) :
    extractChannels img z cs
      = (cs.takeWhile (fun c => (img.getFrame z 0 c).isSome)).filterMap
          (fun c => img.getFrame z 0 c) := by
  induction cs with
  | nil => rfl
  | cons c cs ih =>
    cases h : img.getFrame z 0 c <;>
      simp [extractChannels, List.takeWhile_cons, h, ih]

/-- C2 counterexample: on a project whose single image reports zero
channels, no channel fetch is ever attempted, and the run aborts with an
uncaught error (the warning line reads the never-bound loop variable
`channel`) instead of warning and continuing — the empty-extraction
outcome IS fatal to the whole run here. -/
theorem zeroChannels_run_fatal :
    main zeroChanProj "project.lif" noDirs none none 0 none 0 4095 none
      = .error () := by
  rfl

/-- C2 (amended): for every image index whose resolved channel list is
non-empty and whose extraction yields zero pixel arrays (the first fetch
failed), the composite-and-save step is skipped, a warning naming the
image index and that first failing channel is produced, and the run
continues with the next image index; only when no channel fetch was ever
attempted in the whole run (resolved channel list empty and no earlier
binding of the loop variable) does the warning line itself raise an
undefined-variable error and abort the run. -/
theorem processImage_empty_extraction_warns (proj : Project) (lif : String)
    (isDir : String → Bool) (output : Option String) (z : Nat)
    (low high : ℚ) (st : St) (i c : Nat) (cs is : List Nat)
    (hch : resolveChannels st (proj.getImage i) = c :: cs)
    (hempty : extractChannels (proj.getImage i) z (c :: cs) = []) :
    ∃ st', processImage proj lif isDir output z low high st i
        = .ok (.warned i c, st')
      ∧ runIndexes proj lif isDir output z low high st (i :: is)
        = (runIndexes proj lif isDir output z low high st' is).map
            (fun os => .warned i c :: os) := by
  have hf : (proj.getImage i).getFrame z 0 c = none := by
    by_contra hne
    obtain ⟨p, hp⟩ := Option.ne_none_iff_exists'.mp hne
    simp [extractChannels, hp] at hempty
  refine ⟨⟨some (c :: cs), st.cmapsOpt, some c⟩, ?_, ?_⟩
  · simp [processImage, hch, hempty, attemptedChannels, hf]
  · simp [runIndexes, processImage, hch, hempty, attemptedChannels, hf]

/-- C2 witness: a concrete image whose first (and only) channel fails to
fetch is warned about and the run proceeds. -/
theorem processImage_empty_extraction_warns_witness :
    ∃ st', processImage failFrameProj "p.lif" noDirs none 0 0 4095
        ⟨none, none, none⟩ 0
        = .ok (.warned 0 0, st')
      ∧ runIndexes failFrameProj "p.lif" noDirs none 0 0 4095
          ⟨none, none, none⟩ [0]
        = (runIndexes failFrameProj "p.lif" noDirs none 0 0 4095 st' []).map
            (fun os => .warned 0 0 :: os) :=
  processImage_empty_extraction_warns failFrameProj "p.lif" noDirs none 0
    0 4095 ⟨none, none, none⟩ 0 0 [] [] (by decide) (by rfl)

/-- C3: every channel layer of a composite is painted with alpha 1/2 when
two or more pixel arrays were extracted and with alpha 1 when exactly one
was; the background layer always has alpha 1, never 1/2. -/
theorem composite_alpha (cmaps : List String) (p0 : PixelArray)
    (rest : List PixelArray) (low high : ℚ) :
    (∀ L ∈ (buildComposite cmaps p0 rest low high).layers,
       L.alpha = if rest.isEmpty then 1 else 1/2)
    ∧ (buildComposite cmaps p0 rest low high).background.alpha = 1
    ∧ (buildComposite cmaps p0 rest low high).background.alpha ≠ 1/2 := by
  refine ⟨?_, rfl, by norm_num [buildComposite]⟩
  intro L hL
  simp only [buildComposite, channelLayers, List.mem_map] at hL
  obtain ⟨p, _, rfl⟩ := hL
  cases rest <;> simp

/-- C3 witness: evaluated on a concrete two-array composite, every channel
layer has alpha 1/2 and the background has alpha 1. -/
theorem composite_alpha_witness :
    (∀ L ∈ (buildComposite ["red", "green"] pa0 [pa0] 0 4095).layers,
       L.alpha = 1/2)
    ∧ (buildComposite ["red", "green"] pa0 [pa0] 0 4095).background.alpha
        = 1 := by
  refine ⟨fun L hL => ?_, (composite_alpha ["red", "green"] pa0 [pa0] 0 4095).2.1⟩
  have h := (composite_alpha ["red", "green"] pa0 [pa0] 0 4095).1 L hL
  simpa using h

/-- C4: the background layer is the constant-1 field in the shape of the
first extracted array, shown with the bright-field colormap at bounds
0 to 1 — but under those bounds the constant value 1 renders at the
colormap's full (white) end, not the zero (black) end: the canvas the
code establishes is white, contradicting the claimed black canvas. -/
theorem background_renders_white :
    (buildComposite ["red"] (constFull 2 3 0) [] 0 4095).background.cmapName
        = "bf"
    ∧ (buildComposite ["red"] (constFull 2 3 0) [] 0 4095).background.vmin = 0
    ∧ (buildComposite ["red"] (constFull 2 3 0) [] 0 4095).background.vmax = 1
    ∧ (buildComposite ["red"] (constFull 2 3 0) [] 0
        4095).background.arr.val 0 0 = 1
    ∧ renderPixel "bf" 0 1 1 = some (1, 1, 1)
    ∧ renderPixel "bf" 0 1 1 ≠ some (applyCmap cmap_bf 0) := by
  refine ⟨rfl, rfl, rfl, rfl, ?_, ?_⟩ <;>
    norm_num [renderPixel, LUT, normalize, clip01, applyCmap, cmap_bf]

/-- C5 counterexample: a two-image project whose image 0 has one channel
and whose image 1 has two channels, every fetch succeeding; with no flags,
image 1's file is named with image 0's defaulted channel list
(`project_i1_z0_c0.png`), not with image 1's own maximum channel index
(`project_i1_z0_c0-1.png`) as the claim states. -/
theorem second_image_named_with_first_image_channels :
    (main projOneTwo "project.lif" noDirs none none 0 none 0 4095 none).map
        (List.map savedName)
      = .ok [some "project_i0_z0_c0.png", some "project_i1_z0_c0.png"]
    ∧ ("project_i1_z0_c0.png" : String) ≠ "project_i1_z0_c0-1.png" := by
  exact ⟨rfl, by decide⟩

/-- C5 (amended): for a run with `--lif project.lif`, a two-image project
and no other flags, whose images' channel-0 fetches succeed, exactly two
PNGs are produced; both are named with the channel list defaulted from
image 0 — `project_i0_z0_c0-1-…-N.png` and `project_i1_z0_c0-1-…-N.png`
with N image 0's maximum channel index — because the `--channels` default
taken from the first image persists; image 1's own channel count never
enters its file name. -/
theorem run_two_images_names (proj : Project) (d : String → Bool)
    (low high : ℚ) (n : Nat) (a b : PixelArray)
    (h2 : proj.numImages = 2)
    (hc0 : (proj.getImage 0).channels = n + 1)
    (hf0 : (proj.getImage 0).getFrame 0 0 0 = some a)
    (hf1 : (proj.getImage 1).getFrame 0 0 0 = some b) :
    ∃ c0 c1,
      main proj "project.lif" d none none 0 none low high none
        = .ok [.saved (resolveOutputPath none d "project.lif" 0 0
                  (List.range (n + 1))) c0,
               .saved (resolveOutputPath none d "project.lif" 1 0
                  (List.range (n + 1))) c1] := by
  have hidx : List.range proj.numImages = [0, 1] := by rw [h2]; rfl
  have hrange : List.range (n + 1) = 0 :: List.map Nat.succ (List.range n) :=
    List.range_succ_eq_map n
  refine ⟨buildComposite lutKeys a
      (extractChannels (proj.getImage 0) 0 (List.map Nat.succ (List.range n)))
      low high,
    buildComposite lutKeys b
      (extractChannels (proj.getImage 1) 0 (List.map Nat.succ (List.range n)))
      low high, ?_⟩
  simp only [main, hidx, Option.getD_none, runIndexes, processImage,
    resolveChannels, hc0, hrange, extractChannels, hf0, hf1,
    Option.getD_some, Except.map]

/-- C5 witness: the amended naming, evaluated on the concrete two-image
project with one and two channels. -/
theorem run_two_images_names_witness :
    ∃ c0 c1,
      main projOneTwo "project.lif" noDirs none none 0 none 0 4095 none
        = .ok [.saved (resolveOutputPath none noDirs "project.lif" 0 0
                  (List.range (0 + 1))) c0,
               .saved (resolveOutputPath none noDirs "project.lif" 1 0
                  (List.range (0 + 1))) c1] :=
  run_two_images_names projOneTwo noDirs 0 4095 0 pa0 pa0 rfl rfl rfl rfl

/-- C6: the `channels` and `cmaps` defaults are shared mutable state: an
iteration that starts with `channels = None` stores the first processed
image's full range into the variable; once the variable holds a list it is
never changed again, and every later image resolves its channel selection
to exactly the list the first image left behind (not its own range);
likewise a composited iteration stores the resolved LUT list (the full
palette when `--lut` was unspecified) and a stored LUT list persists. -/
theorem channel_default_persists (proj : Project) (lif : String)
    (d : String → Bool) (output : Option String) (z : Nat) (low high : ℚ)
    (st : St) (i : Nat) (o : Outcome) (st' : St)
    (h : processImage proj lif d output z low high st i = .ok (o, st')) :
    (st.channelsOpt = none →
        st'.channelsOpt = some (List.range (proj.getImage i).channels))
    ∧ (∀ cs, st.channelsOpt = some cs → st'.channelsOpt = some cs)
    ∧ (∀ j, resolveChannels st' (proj.getImage j)
        = resolveChannels st (proj.getImage i))
    ∧ (∀ ls, st.cmapsOpt = some ls → st'.cmapsOpt = some ls)
    ∧ (∀ f c, o = .saved f c →
        st'.cmapsOpt = some (st.cmapsOpt.getD lutKeys)) := by
  simp only [processImage] at h
  split at h
  · split at h
    · exact absurd h (by simp)
    · simp only [Except.ok.injEq, Prod.mk.injEq] at h
      obtain ⟨ho, hst⟩ := h
      subst hst
      refine ⟨fun hn => by simp [resolveChannels, hn],
        fun cs hc => by simp [resolveChannels, hc],
        fun j => by simp [resolveChannels],
        fun ls hl => by simpa using hl,
        fun f c h' => ?_⟩
      rw [← ho] at h'
      exact absurd h' (by simp)
  · simp only [Except.ok.injEq, Prod.mk.injEq] at h
    obtain ⟨ho, hst⟩ := h
    subst hst
    exact ⟨fun hn => by simp [resolveChannels, hn],
      fun cs hc => by simp [resolveChannels, hc],
      fun j => by simp [resolveChannels],
      fun ls hl => by simp [hl],
      fun f c _ => rfl⟩

/-- C6 witness: after the first (warned) iteration of a concrete run the
state holds image 0's full channel range, and a later image resolves to
that stored list. -/
theorem channel_default_persists_witness :
    (⟨some [0], none, some 0⟩ : St).channelsOpt
        = some (List.range (failFrameProj.getImage 0).channels)
    ∧ resolveChannels (⟨some [0], none, some 0⟩ : St)
          (failFrameProj.getImage 1)
        = resolveChannels (⟨none, none, none⟩ : St)
          (failFrameProj.getImage 0) :=
  ⟨(channel_default_persists failFrameProj "p.lif" noDirs none 0 0 4095
      ⟨none, none, none⟩ 0 (.warned 0 0) ⟨some [0], none, some 0⟩ rfl).1 rfl,
   (channel_default_persists failFrameProj "p.lif" noDirs none 0 0 4095
      ⟨none, none, none⟩ 0 (.warned 0 0) ⟨some [0], none, some 0⟩
      rfl).2.2.1 1⟩

/-- Splitting a character list at the last slash and re-appending restores
the list. -/
theorem dirPart_append_name (l : List Char) :
    dirPart l ++ afterLastSlash l = l := by
  unfold dirPart
  obtain ⟨B, hB⟩ : ∃ B, afterLastSlash l = B := ⟨_, rfl⟩
  have h : l = (l.reverse.dropWhile (· ≠ '/')).reverse ++ B := by
    rw [← hB]
    unfold afterLastSlash
    rw [← List.reverse_append, List.takeWhile_append_dropWhile,
      List.reverse_reverse]
  rw [hB, h, List.length_append, Nat.add_sub_cancel, List.take_left]

/-- When the final component of `s` contains no dot, `with_suffix` merely
appends the suffix. -/
theorem withSuffix_no_dot (s suf : String)
    (h : '.' ∉ afterLastSlash s.data) :
    withSuffix s suf = s ++ suf := by
  have hall : (afterLastSlash s.data).reverse.takeWhile (· ≠ '.')
      = (afterLastSlash s.data).reverse := by
    rw [List.takeWhile_eq_self_iff]
    intro x hx
    simp only [decide_eq_true_eq]
    rintro rfl
    exact h (List.mem_reverse.mp hx)
  simp only [withSuffix, withSuffixName, stemLen, hall, List.length_reverse,
    eq_self_iff_true, if_true]
  show String.mk (dirPart s.data ++ (afterLastSlash s.data ++ suf.data))
      = s ++ suf
  rw [← List.append_assoc, dirPart_append_name]
  cases s
  cases suf
  rfl

/-- C7 (amended): `resolveOutputPath` agrees with the spec's reference
definition on the three base cases whenever the pattern's final path
component contains no dot; when the base/prefix contributes a dot to the
final component, `with_suffix` replaces everything from the last such dot
rather than leaving the pattern intact. -/
theorem resolveOutputPath_eq_spec_of_no_dot (output : Option String)
    (d : String → Bool) (lif : String) (i z : Nat) (cs : List Nat)
    (h : '.' ∉ afterLastSlash (mkPattern output d lif i z cs).data) :
    resolveOutputPath output d lif i z cs
      = resolveOutputPathSpec output d lif i z cs :=
  withSuffix_no_dot (mkPattern output d lif i z cs) ".png" h

/-- C7 witness: with a dot-free base the resolved path equals the
reference path. -/
theorem resolveOutputPath_eq_spec_of_no_dot_witness :
    resolveOutputPath none noDirs "project.lif" 2 5 [0, 1]
      = resolveOutputPathSpec none noDirs "project.lif" 2 5 [0, 1] :=
  resolveOutputPath_eq_spec_of_no_dot none noDirs "project.lif" 2 5 [0, 1]
    (by decide)

/-- C7 counterexample: an output base containing a dot (`--output out.v2`)
makes `with_suffix` discard the whole generated pattern — the code yields
`out.png` where the claim's reference definition yields
`out.v2_i0_z0_c0.png`. -/
theorem dotted_base_destroys_pattern :
    resolveOutputPath (some "out.v2") noDirs "project.lif" 0 0 [0]
        = "out.png"
    ∧ resolveOutputPathSpec (some "out.v2") noDirs "project.lif" 0 0 [0]
        = "out.v2_i0_z0_c0.png"
    ∧ ("out.png" : String) ≠ "out.v2_i0_z0_c0.png" := by
  exact ⟨rfl, rfl, by decide⟩

/-- C8: for every supported LUT and bounds `low < high`, an intensity at
or below `low` renders at the colormap's zero end (black, for every LUT in
the palette), an intensity at or above `high` renders at its saturated
end, and an intensity strictly between maps by linear interpolation. -/
theorem threshold_boundary_law (name : String) (cm : Color)
    (low high v : ℚ) (hname : LUT name = some cm) (hlt : low < high) :
    (v ≤ low → renderPixel name low high v = some (applyCmap cm 0))
    ∧ (high ≤ v → renderPixel name low high v = some (applyCmap cm 1))
    ∧ (low < v → v < high →
        renderPixel name low high v
          = some (applyCmap cm ((v - low) / (high - low))))
    ∧ applyCmap cm 0 = (0, 0, 0) := by
  have hD : (0 : ℚ) < high - low := sub_pos.2 hlt
  refine ⟨fun hv => ?_, fun hv => ?_, fun h1 h2 => ?_, by simp [applyCmap]⟩
  · have hr : (v - low) / (high - low) ≤ 0 :=
      div_nonpos_iff.2 (Or.inr ⟨by linarith, hD.le⟩)
    have hn : normalize v low high = 0 := by
      unfold normalize clip01
      rw [min_eq_right (hr.trans zero_le_one), max_eq_left hr]
    simp [renderPixel, hname, hn]
  · have hr : 1 ≤ (v - low) / (high - low) := (one_le_div hD).2 (by linarith)
    have hn : normalize v low high = 1 := by
      unfold normalize clip01
      rw [min_eq_left hr, max_eq_right zero_le_one]
    simp [renderPixel, hname, hn]
  · have hr0 : 0 ≤ (v - low) / (high - low) :=
      div_nonneg (by linarith) hD.le
    have hr1 : (v - low) / (high - low) ≤ 1 := (div_le_one hD).2 (by linarith)
    have hn : normalize v low high = (v - low) / (high - low) := by
      unfold normalize clip01
      rw [min_eq_right hr1, max_eq_right hr0]
    simp [renderPixel, hname, hn]

/-- C8 witness: the red LUT at the default thresholds, evaluated at the
two boundaries. -/
theorem threshold_boundary_law_witness :
    renderPixel "red" 0 4095 0 = some (applyCmap cmap_red 0)
    ∧ renderPixel "red" 0 4095 4095 = some (applyCmap cmap_red 1) :=
  ⟨(threshold_boundary_law "red" cmap_red 0 4095 0 rfl
      (by norm_num)).1 le_rfl,
   (threshold_boundary_law "red" cmap_red 0 4095 4095 rfl
      (by norm_num)).2.1 le_rfl⟩

/-- The arrays a layer list paints, in order: the zipped arrays. -/
theorem channelLayers_map_arr (cmaps : List String)
    (pix : List PixelArray) (alpha low high : ℚ) :
    (channelLayers cmaps pix alpha low high).map Layer.arr
      = pix.take cmaps.length := by
  induction cmaps generalizing pix with
  | nil => simp [channelLayers]
  | cons c cs ih =>
    cases pix with
    | nil => simp [channelLayers]
    | cons p ps => simpa [channelLayers] using ih ps

/-- The colormap names a layer list uses, in order: the zipped names. -/
theorem channelLayers_map_name (cmaps : List String)
    (pix : List PixelArray) (alpha low high : ℚ) :
    (channelLayers cmaps pix alpha low high).map Layer.cmapName
      = cmaps.take pix.length := by
  induction cmaps generalizing pix with
  | nil => simp [channelLayers]
  | cons c cs ih =>
    cases pix with
    | nil => simp [channelLayers]
    | cons p ps => simpa [channelLayers] using ih ps

/-- C9: compositing pairs the LUT list and the extracted arrays
positionally up to the shorter length: the painted layers are exactly
`min` many, the arrays painted are the leading arrays up to the LUT
count (arrays beyond it are silently not painted), and the names used are
the leading LUT names up to the array count (extra names are ignored). -/
theorem lut_channel_truncation (cmaps : List String)
    (pix : List PixelArray) (alpha low high : ℚ) :
    (channelLayers cmaps pix alpha low high).length
        = min cmaps.length pix.length
    ∧ (channelLayers cmaps pix alpha low high).map Layer.arr
        = pix.take cmaps.length
    ∧ (channelLayers cmaps pix alpha low high).map Layer.cmapName
        = cmaps.take pix.length :=
  ⟨by simp [channelLayers, List.length_zip],
   channelLayers_map_arr cmaps pix alpha low high,
   channelLayers_map_name cmaps pix alpha low high⟩

/-- C10: a threshold supplied on the command line reaches `main` as the
raw string token (the option declares no `type=`), while an omitted flag
yields the integer defaults 0 and 4095 — the two paths produce values of
different Python types. -/
theorem threshold_arg_types (s : String) :
    argValue lowThresholdArg (some s) = PyVal.str s
    ∧ argValue highThresholdArg (some s) = PyVal.str s
    ∧ argValue lowThresholdArg none = PyVal.int 0
    ∧ argValue highThresholdArg none = PyVal.int 4095
    ∧ (argValue lowThresholdArg (some s)).isStr = true
    ∧ (argValue lowThresholdArg none).isStr = false :=
  ⟨rfl, rfl, rfl, rfl, rfl, rfl⟩

end EasyLens
